import Mathlib

/-!
# Verification of the `get_content_as_filename` endpoint declaration

Shallow embedding of
`crates/ruma-client-api/src/authenticated_media/get_content_as_filename.rs`
(the `GET /_matrix/client/*/media/download/{serverName}/{mediaId}/{fileName}`
endpoint) together with the versioned typed-endpoint marshaling engine it
relies on.  The endpoint declaration (metadata, request/response field
layout, defaults) is translated from the source file; the generic engine
(version resolver, path renderer, request encoder, response decoder) is not
part of the source fragment and is modelled from the specification, as
marked on each definition.

Strings on the wire are modelled at the byte level: a rendered URI path is a
list of bytes (`Nat` values below 256), and Rust `String` values are taken
to their UTF-8 byte sequences before percent-encoding.
-/

namespace Ruma

/-! ## Bytes and percent-encoding (Path Renderer support)

Modelled from the spec: percent-encoding follows URI path-segment rules
(reserved characters `/ ? # [ ]` and non-ASCII bytes encoded;
already-encoded values never double-encoded, so `%` passes through).
-/

/-- Upper-case hexadecimal digit for a value below 16, as a byte. -/
def hexDigitByte (n : Nat) : Nat :=
  if n < 10 then 48 + n else 55 + n

/-- Numeric value of a hexadecimal digit byte, if it is one. -/
def hexVal (b : Nat) : Option Nat :=
  if 48 ≤ b ∧ b ≤ 57 then some (b - 48)
  else if 65 ≤ b ∧ b ≤ 70 then some (b - 55)
  else if 97 ≤ b ∧ b ≤ 102 then some (b - 87)
  else none

/-- Bytes that percent-encoding must escape in a path segment: the reserved
characters `/ ? # [ ]` and every non-ASCII byte. `%` (37) is deliberately
not in this set: already-encoded values are never double-encoded. -/
def reservedByte (b : Nat) : Bool :=
  b == 47 || b == 63 || b == 35 || b == 91 || b == 93 || 128 ≤ b

/-- Percent-encode one byte of a path segment. -/
def pctEncodeByte (b : Nat) : List Nat :=
  if reservedByte b then [37, hexDigitByte (b / 16), hexDigitByte (b % 16)]
  else [b]

/-- Percent-encode a byte sequence for use as one URI path segment. -/
def pctEncodeBytes (bs : List Nat) : List Nat :=
  bs.flatMap pctEncodeByte

/-- Percent-decode a byte sequence: each `%XY` triple with hexadecimal
digits becomes the byte it denotes; everything else passes through
(a malformed `%`-triple is kept verbatim). -/
def pctDecodeBytes : List Nat → List Nat
  | 37 :: h :: l :: rest =>
    match hexVal h, hexVal l with
    | some x, some y => (16 * x + y) :: pctDecodeBytes rest
    | _, _ => 37 :: h :: l :: pctDecodeBytes rest
  | b :: rest => b :: pctDecodeBytes rest
  | [] => []

/-! ## UTF-8 byte sequences of strings

Rust `String` values carried in path fields are placed on the wire as
their UTF-8 byte sequences.
-/

/-- The UTF-8 encoding of one character, as a list of bytes. -/
def utf8EncChar (c : Char) : List Nat :=
  if c.toNat < 128 then [c.toNat]
  else if c.toNat < 2048 then [192 + c.toNat / 64, 128 + c.toNat % 64]
  else if c.toNat < 65536 then
    [224 + c.toNat / 4096, 128 + (c.toNat / 64) % 64, 128 + c.toNat % 64]
  else
    [240 + c.toNat / 262144, 128 + (c.toNat / 4096) % 64,
      128 + (c.toNat / 64) % 64, 128 + c.toNat % 64]

/-- The UTF-8 byte sequence of a string. -/
def strBytes (s : String) : List Nat :=
  s.data.flatMap utf8EncChar

/-! ## Endpoint metadata (translated from the source `metadata!` block)

The `metadata!` invocation in `get_content_as_filename.rs` declares method
`GET`, `rate_limited: true`, `authentication: AccessToken` and the history
table mapping the unstable `org.matrix.msc3916` tag and stable version
`1.11` to their path templates.  A path template is a sequence of literal
segments and named placeholders (`:server_name`, `:media_id`,
`:filename`).
-/

/-- One segment of a path template: a literal, or a named placeholder. -/
inductive Seg where
  | lit (s : String)
  | ph (s : String)
deriving DecidableEq, Repr

/-- A version tag of the history table: a stable (ordered) version, or an
unstable tag identified by an extension string. -/
inductive VersionTag where
  | stable (v : Nat × Nat)
  | unstable (ext : String)
deriving DecidableEq, Repr

/-- Authentication requirement of an endpoint. -/
inductive AuthScheme where
  | noAuth
  | accessToken
  | serverSignature
deriving DecidableEq, Repr

/-- Immutable description of an endpoint: method, rate limiting,
authentication, and the (version tag → path template) table. -/
structure Metadata where
  method : String
  rate_limited : Bool
  authentication : AuthScheme
  history : List (VersionTag × List Seg)

/-- Template of the unstable history entry:
`/_matrix/client/unstable/org.matrix.msc3916/media/download/:server_name/:media_id/:filename`. -/
def unstableTemplate : List Seg :=
  [.lit "_matrix", .lit "client", .lit "unstable", .lit "org.matrix.msc3916",
    .lit "media", .lit "download",
    .ph "server_name", .ph "media_id", .ph "filename"]

/-- Template of the `1.11` history entry:
`/_matrix/client/v1/media/download/:server_name/:media_id/:filename`. -/
def v1Template : List Seg :=
  [.lit "_matrix", .lit "client", .lit "v1", .lit "media", .lit "download",
    .ph "server_name", .ph "media_id", .ph "filename"]

/-- The endpoint's metadata, translated from the `metadata!` block. -/
def METADATA : Metadata :=
  { method := "GET"
    rate_limited := true
    authentication := .accessToken
    history :=
      [(.unstable "org.matrix.msc3916", unstableTemplate),
        (.stable (1, 11), v1Template)] }

/-! ## Version resolver

Modelled from the spec: among stable-tagged templates whose version is at
most the negotiated version, pick the one with the greatest version; if
none qualifies and an unstable-tagged template exists, use it as fallback;
if neither exists, fail with `UnsupportedVersion`.
-/

/-- Error taxonomy of the marshaling engine (spec section 7). -/
inductive ApiError where
  | unsupportedVersion
  | missingPathField (name : String)
  | missingHeader (name : String)
  | headerParse (header : String) (raw : String)
  | bodyDecode
deriving DecidableEq, Repr

/-- Ordering of stable versions `major.minor`, lexicographic. -/
def verLe (a b : Nat × Nat) : Bool :=
  Nat.blt a.1 b.1 || (a.1 == b.1 && Nat.ble a.2 b.2)

/-- Whether a history entry is unstable-tagged. -/
def isUnstableTag : VersionTag → Bool
  | .unstable _ => true
  | .stable _ => false

/-- Greatest stable-tagged template whose version qualifies, if any. -/
def bestStable (v : Nat × Nat) (history : List (VersionTag × List Seg)) :
    Option ((Nat × Nat) × List Seg) :=
  history.foldl
    (fun acc e =>
      match e.1 with
      | .stable sv =>
        if verLe sv v then
          match acc with
          | some (bv, _) => if verLe sv bv then acc else some (sv, e.2)
          | none => some (sv, e.2)
        else acc
      | .unstable _ => acc)
    none

/-- Modelled from the spec: the version resolver,
`resolve(metadata, negotiated_version) -> path_template | UnsupportedVersion`. -/
def resolveVersion (history : List (VersionTag × List Seg))
    (v : Nat × Nat) : Except ApiError (List Seg) :=
  match bestStable v history with
  | some (_, tpl) => .ok tpl
  | none =>
    match history.find? (fun e => isUnstableTag e.1) with
    | some e => .ok e.2
    | none => .error .unsupportedVersion

/-! ## Path renderer

Modelled from the spec: each named placeholder of the chosen template is
replaced by the percent-encoded representation of the correspondingly
named field's value; a placeholder without a matching field fails with
`MissingPathField`.  The rendered path is `/seg/seg/...`, one leading `/`
before every segment.
-/

/-- Render each template segment to its wire bytes: literals as their
UTF-8 bytes, placeholders as the percent-encoded UTF-8 bytes of the
matching field value. -/
def renderSegs (fields : String → Option String) :
    List Seg → Except ApiError (List (List Nat))
  | [] => .ok []
  | .lit s :: rest =>
    (renderSegs fields rest).map (fun r => strBytes s :: r)
  | .ph n :: rest =>
    match fields n with
    | none => .error (.missingPathField n)
    | some v =>
      (renderSegs fields rest).map (fun r => pctEncodeBytes (strBytes v) :: r)

/-- Join rendered segments into a URI path, `/` before each segment. -/
def joinSegs (segs : List (List Nat)) : List Nat :=
  segs.flatMap (fun s => 47 :: s)

/-- Modelled from the spec: the path renderer,
`render(template, path_field_values) -> URI path | MissingPathField`. -/
def renderPath (fields : String → Option String) (t : List Seg) :
    Except ApiError (List Nat) :=
  (renderSegs fields t).map joinSegs

/-- Split a byte sequence at every occurrence of a separator byte. -/
def splitOnByte (sep : Nat) : List Nat → List (List Nat)
  | [] => [[]]
  | x :: xs =>
    if x = sep then [] :: splitOnByte sep xs
    else
      match splitOnByte sep xs with
      | [] => [[x]]
      | h :: t => (x :: h) :: t

/-- Modelled from the spec (decode direction of the Path Renderer, used by
the generated server-side incoming-request parser): split the path into
segments, match literals, and percent-decode placeholder segments. -/
def matchTemplate : List Seg → List (List Nat) →
    Option (List (String × List Nat))
  | [], [] => some []
  | .lit s :: t, seg :: rest =>
    if seg = strBytes s then matchTemplate t rest else none
  | .ph n :: t, seg :: rest =>
    (matchTemplate t rest).map (fun m => (n, pctDecodeBytes seg) :: m)
  | _, _ => none

/-- Decode the placeholder values of a wire path against a template. -/
def decodeRequestPath (t : List Seg) (path : List Nat) :
    Option (List (String × List Nat)) :=
  match path with
  | 47 :: rest => matchTemplate t (splitOnByte 47 rest)
  | _ => none

/-! ## Decimal rendering of the query duration

The `timeout_ms` query value is a duration serialized as its number of
milliseconds in decimal (`ruma_common::serde::duration::ms`).  The fuel
argument keeps the recursion structural: `n` itself is always enough fuel
for the digits of `n`.
-/

/-- Decimal digit characters of `n`, least significant first. -/
def toDigitsAux : Nat → Nat → List Char
  | 0, _ => []
  | fuel + 1, n =>
    if n = 0 then []
    else Char.ofNat (48 + n % 10) :: toDigitsAux fuel (n / 10)

/-- Canonical decimal rendering of a natural number. -/
def natToString (n : Nat) : String :=
  if n = 0 then "0" else ⟨(toDigitsAux n n).reverse⟩

/-- Is a character a decimal digit? -/
def isDigitB (c : Char) : Bool :=
  Nat.ble 48 c.toNat && Nat.ble c.toNat 57

/-- One step of decimal parsing. -/
def digitStep (acc : Nat) (c : Char) : Nat :=
  acc * 10 + (c.toNat - 48)

/-- Parse a decimal natural number; `none` on an empty or non-digit
string. -/
def parseNat (s : String) : Option Nat :=
  if s.data ≠ [] ∧ s.data.all isDigitB = true then
    some (s.data.foldl digitStep 0)
  else none

/-! ## The Request type (translated from the `#[request]` struct)

`server_name`, `media_id` and `filename` are `#[ruma_api(path)]` fields;
`timeout_ms` is a `#[ruma_api(query)]` duration with
`default = default_download_timeout` and
`skip_serializing_if = is_default_download_timeout`.  Durations are
measured in milliseconds (`ruma_common::serde::duration::ms`).
-/

/-- Request type for the `get_media_content_as_filename` endpoint. -/
structure Request where
  server_name : String
  media_id : String
  filename : String
  timeout_ms : Nat

/-- Modelled from the spec: `ruma_common::media::default_download_timeout`
is not part of this fragment; its value is documented on `timeout_ms` as
20 seconds, i.e. 20000 milliseconds. -/
def default_download_timeout : Nat := 20000

/-- Modelled from the spec:
`ruma_common::media::is_default_download_timeout`, the omit-if-default
predicate of `timeout_ms`. -/
def is_default_download_timeout (t : Nat) : Bool :=
  t == default_download_timeout

/-- Constructor `Request::new`: fills `timeout_ms` with its default. -/
def Request.new (media_id : String) (server_name : String)
    (filename : String) : Request :=
  { media_id, server_name, filename,
    timeout_ms := default_download_timeout }

/-- Where on the wire a declared struct field lives. -/
inductive Location where
  | path
  | query
  | header (name : String)
  | rawBody
  | jsonBody
deriving DecidableEq, Repr

/-- Declarative description of one struct field's wire mapping. -/
structure FieldMapping where
  name : String
  location : Location
  hasDefault : Bool
  isOptional : Bool
deriving DecidableEq, Repr

/-- Field mappings of `Request`, read off the `#[ruma_api(...)]`
attributes of the source struct. -/
def requestFieldMappings : List FieldMapping :=
  [⟨"server_name", .path, false, false⟩,
    ⟨"media_id", .path, false, false⟩,
    ⟨"filename", .path, false, false⟩,
    ⟨"timeout_ms", .query, true, false⟩]

/-- Field mappings of `Response`, read off the `#[ruma_api(...)]`
attributes of the source struct. -/
def responseFieldMappings : List FieldMapping :=
  [⟨"file", .rawBody, false, false⟩,
    ⟨"content_type", .header "content-type", false, true⟩,
    ⟨"content_disposition", .header "content-disposition", false, true⟩,
    ⟨"cross_origin_resource_policy",
      .header "cross-origin-resource-policy", false, true⟩,
    ⟨"cache_control", .header "cache-control", false, true⟩]

/-! ## Request encoder -/

/-- An in-memory outgoing HTTP request. -/
structure WireRequest where
  method : String
  path : List Nat
  query : List (String × String)
  headers : List (String × String)
  body : List Nat

/-- Path-field values of a request, by placeholder name. -/
def fieldsOf (r : Request) : String → Option String := fun n =>
  if n = "server_name" then some r.server_name
  else if n = "media_id" then some r.media_id
  else if n = "filename" then some r.filename
  else none

/-- Query parameters of a request: `timeout_ms` is emitted unless it
equals its default and the omit-if-default predicate accepts it. -/
def queryOf (r : Request) : List (String × String) :=
  if r.timeout_ms = default_download_timeout
      ∧ is_default_download_timeout r.timeout_ms = true then []
  else [("timeout_ms", natToString r.timeout_ms)]

/-- Modelled from the spec: the request encoder,
`encode(metadata, request_value) -> wire request | error`; resolves the
path template for the negotiated version, renders the path, assembles
query parameters, and leaves headers and body empty (the request declares
no header and no body fields). -/
def encodeRequest (v : Nat × Nat) (r : Request) :
    Except ApiError WireRequest :=
  match resolveVersion METADATA.history v with
  | .error e => .error e
  | .ok tpl =>
    match renderPath (fieldsOf r) tpl with
    | .error e => .error e
    | .ok p =>
      .ok { method := METADATA.method, path := p, query := queryOf r
            headers := [], body := [] }

/-- Value lookup in an association list (query parameters, headers). -/
def assocLookup (name : String) (l : List (String × String)) :
    Option String :=
  (l.find? (fun p => p.1 == name)).map (fun p => p.2)

/-- Modelled from the spec: decode direction for the query, used by the
generated server-side incoming-request parser.  An absent `timeout_ms`
yields the serde default; a present value is parsed as decimal
milliseconds. -/
def decodeQueryTimeout (query : List (String × String)) : Option Nat :=
  match assocLookup "timeout_ms" query with
  | none => some default_download_timeout
  | some s => parseNat s

/-! ## Structured `Content-Disposition` values

Modelled from the spec: `ruma_common::http_headers::ContentDisposition` is
not part of this fragment.  The spec describes it as an optional typed
header value with a parsed representation, "possibly containing the name
of the file"; parsing failure and absence are distinct outcomes.  The
model keeps a disposition type and an optional filename parameter.
-/

/-- A parsed `Content-Disposition` value. -/
structure ContentDisposition where
  disposition_type : String
  filename : Option String
deriving DecidableEq, Repr

/-- Textual header representation of a `ContentDisposition`. -/
def renderContentDisposition (cd : ContentDisposition) : String :=
  match cd.filename with
  | none => cd.disposition_type
  | some f => cd.disposition_type ++ "; filename=" ++ f

/-- Parse a `Content-Disposition` header value: the disposition type runs
until `;`; an optional `; filename=` parameter follows.  Anything else is
malformed. -/
def parseContentDisposition (s : String) : Option ContentDisposition :=
  if s.data.dropWhile (fun c => c ≠ ';') = [] then
    some ⟨⟨s.data⟩, none⟩
  else if (" filename=").data.isPrefixOf
      (s.data.dropWhile (fun c => c ≠ ';')).tail then
    some ⟨⟨s.data.takeWhile (fun c => c ≠ ';')⟩,
      some ⟨(s.data.dropWhile (fun c => c ≠ ';')).tail.drop 10⟩⟩
  else none

/-- A `ContentDisposition` is renderable iff its disposition type carries
no `;` (the parameter separator). -/
def ContentDisposition.wellFormed (cd : ContentDisposition) : Prop :=
  ';' ∉ cd.disposition_type.data

instance (cd : ContentDisposition) :
    Decidable cd.wellFormed := by
  unfold ContentDisposition.wellFormed
  infer_instance

/-! ## The Response type (translated from the `#[response]` struct)

`file` is the `#[ruma_api(raw_body)]` field; the other four are
`#[ruma_api(header = ...)]` fields of optional type.  `content_type`,
`cross_origin_resource_policy` and `cache_control` are optional raw
strings; `content_disposition` is an optional structured
`ContentDisposition`.
-/

/-- Response type for the `get_media_content_as_filename` endpoint. -/
structure Response where
  file : List Nat
  content_type : Option String
  content_disposition : Option ContentDisposition
  cross_origin_resource_policy : Option String
  cache_control : Option String
deriving DecidableEq, Repr

/-- Constructor `Response::new`: only the raw body, all headers absent. -/
def Response.new (file : List Nat) : Response :=
  { file, content_type := none, content_disposition := none,
    cross_origin_resource_policy := none, cache_control := none }

/-- An in-memory incoming HTTP response. -/
structure WireResponse where
  status : Nat
  headers : List (String × String)
  body : List Nat

/-- A header that is set only when its value is present. -/
def optHeader (name : String) : Option String → List (String × String)
  | none => []
  | some v => [(name, v)]

/-- Modelled from the spec: the server-side encoder producing the wire
response for a `Response` value (each present header field is set, an
absent one is omitted entirely; the raw body field becomes the body
verbatim). -/
def encodeResponse (r : Response) : WireResponse :=
  { status := 200
    headers :=
      optHeader "content-type" r.content_type
        ++ optHeader "content-disposition"
          (r.content_disposition.map renderContentDisposition)
        ++ optHeader "cross-origin-resource-policy"
          r.cross_origin_resource_policy
        ++ optHeader "cache-control" r.cache_control
    body := r.file }

/-- Modelled from the spec: the response decoder,
`decode(metadata, wire response) -> response_value | error`.  Absent
optional headers decode to their absent state; a present
`Content-Disposition` that fails structural parsing yields
`HeaderParseError` naming the header and the raw value; the three raw
string headers are captured verbatim; the whole body is the raw body
field. -/
def decodeResponse (w : WireResponse) : Except ApiError Response :=
  match assocLookup "content-disposition" w.headers with
  | none =>
    .ok { file := w.body
          content_type := assocLookup "content-type" w.headers
          content_disposition := none
          cross_origin_resource_policy :=
            assocLookup "cross-origin-resource-policy" w.headers
          cache_control := assocLookup "cache-control" w.headers }
  | some raw =>
    match parseContentDisposition raw with
    | none => .error (.headerParse "content-disposition" raw)
    | some cd =>
      .ok { file := w.body
            content_type := assocLookup "content-type" w.headers
            content_disposition := some cd
            cross_origin_resource_policy :=
              assocLookup "cross-origin-resource-policy" w.headers
            cache_control := assocLookup "cache-control" w.headers }

/-- Validity for the encode/decode round trip of requests: percent signs
in a field value would collide with the no-double-encoding rule. -/
def Request.valid (r : Request) : Prop :=
  '%' ∉ r.server_name.data ∧ '%' ∉ r.media_id.data ∧ '%' ∉ r.filename.data

instance (r : Request) : Decidable r.valid := by
  unfold Request.valid
  infer_instance

/-- Validity for the response round trip: a present structured
`Content-Disposition` value must be renderable. -/
def Response.valid (r : Response) : Prop :=
  ∀ cd, r.content_disposition = some cd → cd.wellFormed

/-! ## Theorems -/

theorem hexVal_hexDigitByte {n : Nat} (h : n < 16) :
    hexVal (hexDigitByte n) = some n := by
  interval_cases n <;> rfl

theorem hexDigitByte_ne_47 (n : Nat) : hexDigitByte n ≠ 47 := by
  unfold hexDigitByte
  split <;> omega

theorem pctEncodeBytes_cons (b : Nat) (rest : List Nat) :
    pctEncodeBytes (b :: rest) = pctEncodeByte b ++ pctEncodeBytes rest := by
  simp [pctEncodeBytes]

theorem pctDecode_cons_ne {b : Nat} (h : b ≠ 37) (l : List Nat) :
    pctDecodeBytes (b :: l) = b :: pctDecodeBytes l := by
  match l with
  | [] => simp [pctDecodeBytes, h]
  | [x] => simp [pctDecodeBytes, h]
  | x :: y :: rest => simp [pctDecodeBytes, h]

theorem pctDecode_triple {b : Nat} (h : b < 256) (l : List Nat) :
    pctDecodeBytes (37 :: hexDigitByte (b / 16) :: hexDigitByte (b % 16) :: l)
      = b :: pctDecodeBytes l := by
  have h1 : b / 16 < 16 := by omega
  have h2 : b % 16 < 16 := by omega
  simp [pctDecodeBytes, hexVal_hexDigitByte h1, hexVal_hexDigitByte h2,
    Nat.div_add_mod]

/-- Round trip: percent-decoding undoes percent-encoding on any byte
sequence of genuine bytes that contains no `%`. -/
theorem pctDecode_pctEncode (bs : List Nat) (hlt : ∀ b ∈ bs, b < 256)
    (hpct : 37 ∉ bs) : pctDecodeBytes (pctEncodeBytes bs) = bs := by
  induction bs with
  | nil => rfl
  | cons b rest ih =>
    have hb : b < 256 := hlt b (by simp)
    have hbn : b ≠ 37 := by
      intro h
      exact hpct (h ▸ List.mem_cons_self b rest)
    have hrest : pctDecodeBytes (pctEncodeBytes rest) = rest :=
      ih (fun x hx => hlt x (List.mem_cons_of_mem _ hx))
        (fun hx => hpct (List.mem_cons_of_mem _ hx))
    rw [pctEncodeBytes_cons]
    by_cases hres : reservedByte b
    · rw [show pctEncodeByte b
          = [37, hexDigitByte (b / 16), hexDigitByte (b % 16)] by
          simp [pctEncodeByte, hres]]
      rw [List.cons_append, List.cons_append, List.cons_append,
        List.nil_append, pctDecode_triple hb, hrest]
    · rw [show pctEncodeByte b = [b] by simp [pctEncodeByte, hres]]
      rw [List.cons_append, List.nil_append, pctDecode_cons_ne hbn, hrest]

/-- A percent-encoded segment never contains the byte `/` (47): `/` itself
is reserved and hexadecimal digit bytes are distinct from 47. -/
theorem slash_not_mem_pctEncodeByte (b : Nat) : 47 ∉ pctEncodeByte b := by
  unfold pctEncodeByte
  by_cases hres : reservedByte b
  · simp only [hres, if_pos, List.mem_cons, List.not_mem_nil, or_false]
    intro h
    rcases h with h | h | h
    · omega
    · exact hexDigitByte_ne_47 _ h.symm
    · exact hexDigitByte_ne_47 _ h.symm
  · simp only [hres, Bool.false_eq_true, if_neg, not_false_iff,
      List.mem_singleton]
    intro h
    subst h
    simp [reservedByte] at hres

theorem slash_not_mem_pctEncodeBytes (bs : List Nat) :
    47 ∉ pctEncodeBytes bs := by
  unfold pctEncodeBytes
  intro h
  rcases List.mem_flatMap.mp h with ⟨b, _, hmem⟩
  exact slash_not_mem_pctEncodeByte b hmem

theorem char_toNat_lt (c : Char) : c.toNat < 1114112 := by
  have h := c.valid
  rcases h with h | h
  · exact Nat.lt_trans h (by omega)
  · exact h.2

theorem mem_utf8EncChar_lt {c : Char} {b : Nat} (h : b ∈ utf8EncChar c) :
    b < 256 := by
  have hc := char_toNat_lt c
  unfold utf8EncChar at h
  split at h <;> [skip; split at h] <;>
    [skip; skip; split at h] <;> simp only [List.mem_cons,
      List.not_mem_nil, or_false] at h <;> omega

theorem mem_strBytes_lt {s : String} {b : Nat} (h : b ∈ strBytes s) :
    b < 256 := by
  rcases List.mem_flatMap.mp h with ⟨c, _, hmem⟩
  exact mem_utf8EncChar_lt hmem

/-- An ASCII byte occurs in a string's UTF-8 bytes exactly when the
corresponding character occurs in the string: continuation and leading
bytes of multi-byte sequences are all at least 128. -/
theorem ascii_mem_utf8EncChar {c c0 : Char} (hc0 : c0.toNat < 128) :
    c0.toNat ∈ utf8EncChar c ↔ c = c0 := by
  constructor
  · intro h
    unfold utf8EncChar at h
    split at h
    · simp only [List.mem_singleton] at h
      exact (Char.ext (UInt32.ext h)).symm
    · split at h
      · simp only [List.mem_cons, List.not_mem_nil, or_false] at h
        rcases h with h | h <;> omega
      · split at h
        · simp only [List.mem_cons, List.not_mem_nil, or_false] at h
          rcases h with h | h | h <;> omega
        · simp only [List.mem_cons, List.not_mem_nil, or_false] at h
          rcases h with h | h | h | h <;> omega
  · intro h
    subst h
    unfold utf8EncChar
    simp [hc0]

theorem ascii_mem_strBytes {s : String} {c0 : Char} (hc0 : c0.toNat < 128) :
    c0.toNat ∈ strBytes s ↔ c0 ∈ s.data := by
  unfold strBytes
  rw [List.mem_flatMap]
  constructor
  · rintro ⟨c, hc, hmem⟩
    rwa [(ascii_mem_utf8EncChar hc0).mp hmem] at hc
  · intro h
    exact ⟨c0, h, (ascii_mem_utf8EncChar hc0).mpr rfl⟩

theorem bestStable_none_of_no_qualifying {v : Nat × Nat}
    {history : List (VersionTag × List Seg)}
    (h : ∀ e ∈ history, ∃ sv, e.1 = .stable sv ∧ verLe sv v = false) :
    bestStable v history = none := by
  induction history with
  | nil => rfl
  | cons e t ih =>
    rcases h e (by simp) with ⟨sv, he, hle⟩
    have step : bestStable v (e :: t) = bestStable v t := by
      unfold bestStable
      rw [List.foldl_cons]
      congr 1
      rw [he]
      simp [hle]
    rw [step]
    exact ih (fun x hx => h x (List.mem_cons_of_mem _ hx))

theorem find_unstable_none_of_all_stable
    {history : List (VersionTag × List Seg)}
    (h : ∀ e ∈ history, ∃ sv, e.1 = VersionTag.stable sv) :
    history.find? (fun e => isUnstableTag e.1) = none := by
  induction history with
  | nil => rfl
  | cons e t ih =>
    rcases h e (by simp) with ⟨sv, he⟩
    rw [List.find?_cons_of_neg, ih (fun x hx => h x (List.mem_cons_of_mem _ hx))]
    rw [he]
    simp [isUnstableTag]

theorem splitOnByte_no_sep {sep : Nat} {s : List Nat} (h : sep ∉ s) :
    splitOnByte sep s = [s] := by
  induction s with
  | nil => rfl
  | cons x xs ih =>
    have hx : x ≠ sep := fun hx => h (hx ▸ List.mem_cons_self x xs)
    have hxs : splitOnByte sep xs = [xs] :=
      ih (fun hm => h (List.mem_cons_of_mem _ hm))
    unfold splitOnByte
    simp [hx, hxs]

theorem splitOnByte_append_sep {sep : Nat} {s : List Nat} (h : sep ∉ s)
    (l : List Nat) :
    splitOnByte sep (s ++ sep :: l) = s :: splitOnByte sep l := by
  induction s with
  | nil =>
    rw [List.nil_append, splitOnByte]
    simp
  | cons x xs ih =>
    have hx : x ≠ sep := fun hx => h (hx ▸ List.mem_cons_self x xs)
    have hxs := ih (fun hm => h (List.mem_cons_of_mem _ hm))
    rw [List.cons_append, splitOnByte, if_neg hx, hxs]

/-- Splitting a joined path recovers the segments, provided no segment
contains the separator. -/
theorem splitOnByte_joinSegs {segs : List (List Nat)} {s : List Nat}
    (hs : 47 ∉ s) (hsegs : ∀ x ∈ segs, 47 ∉ x) :
    splitOnByte 47 (s ++ joinSegs segs) = s :: segs := by
  induction segs generalizing s with
  | nil =>
    rw [show joinSegs [] = [] from rfl, List.append_nil,
      splitOnByte_no_sep hs]
  | cons seg rest ih =>
    rw [show joinSegs (seg :: rest) = 47 :: (seg ++ joinSegs rest) by
      simp [joinSegs]]
    rw [splitOnByte_append_sep hs]
    rw [show seg ++ joinSegs rest = seg ++ joinSegs rest from rfl]
    rw [ih (hsegs seg (by simp))
      (fun x hx => hsegs x (List.mem_cons_of_mem _ hx))]

theorem char_ofNat_digit_toNat {d : Nat} (h : d < 10) :
    (Char.ofNat (48 + d)).toNat = 48 + d := by
  interval_cases d <;> rfl

theorem toDigitsAux_foldl {fuel : Nat} :
    ∀ {n : Nat}, n ≤ fuel → ∀ acc : Nat,
      List.foldl digitStep acc (toDigitsAux fuel n).reverse
        = acc * 10 ^ (toDigitsAux fuel n).length + n := by
  induction fuel with
  | zero =>
    intro n hn acc
    interval_cases n
    simp [toDigitsAux]
  | succ fuel ih =>
    intro n hn acc
    by_cases h0 : n = 0
    · subst h0
      simp [toDigitsAux]
    · rw [show toDigitsAux (fuel + 1) n
          = Char.ofNat (48 + n % 10) :: toDigitsAux fuel (n / 10) by
          rw [toDigitsAux, if_neg h0]]
      have hdiv : n / 10 ≤ fuel := by omega
      rw [List.reverse_cons, List.foldl_append, ih hdiv acc]
      simp only [List.foldl_cons, List.foldl_nil, digitStep, List.length_cons]
      rw [char_ofNat_digit_toNat (Nat.mod_lt n (by omega))]
      have : 48 + n % 10 - 48 = n % 10 := by omega
      rw [this]
      have hmod := Nat.div_add_mod n 10
      ring_nf
      omega

theorem toDigitsAux_all_digits {fuel n : Nat} :
    (toDigitsAux fuel n).all isDigitB = true := by
  induction fuel generalizing n with
  | zero => rfl
  | succ fuel ih =>
    by_cases h0 : n = 0
    · subst h0
      rfl
    · rw [show toDigitsAux (fuel + 1) n
          = Char.ofNat (48 + n % 10) :: toDigitsAux fuel (n / 10) by
          rw [toDigitsAux, if_neg h0]]
      rw [List.all_cons, ih, Bool.and_true]
      unfold isDigitB
      rw [char_ofNat_digit_toNat (Nat.mod_lt n (by omega))]
      have h1 : Nat.ble 48 (48 + n % 10) = true := by
        rw [Nat.ble_eq]
        omega
      have h2 : Nat.ble (48 + n % 10) 57 = true := by
        rw [Nat.ble_eq]
        have := Nat.mod_lt n (show 0 < 10 by omega)
        omega
      rw [h1, h2]
      rfl

theorem toDigitsAux_ne_nil {fuel n : Nat} (hf : n ≤ fuel) (hn : n ≠ 0) :
    toDigitsAux fuel n ≠ [] := by
  match fuel with
  | 0 => omega
  | fuel + 1 =>
    rw [toDigitsAux, if_neg hn]
    simp

/-- Parsing the canonical decimal rendering returns the number. -/
theorem parseNat_natToString (n : Nat) : parseNat (natToString n) = some n := by
  by_cases h0 : n = 0
  · subst h0
    rfl
  · rw [show natToString n = ⟨(toDigitsAux n n).reverse⟩ by
      rw [natToString, if_neg h0]]
    unfold parseNat
    rw [if_pos]
    · rw [toDigitsAux_foldl (Nat.le_refl n) 0]
      simp
    · constructor
      · simp only [ne_eq, List.reverse_eq_nil_iff]
        exact toDigitsAux_ne_nil (Nat.le_refl n) h0
      · rw [List.all_eq_true]
        intro c hc
        rw [List.mem_reverse] at hc
        exact List.all_eq_true.mp toDigitsAux_all_digits c hc

theorem string_mk_data (s : String) : String.mk s.data = s := rfl

theorem dropWhile_append_of_all {p : Char → Bool} {l1 : List Char}
    (h : ∀ x ∈ l1, p x = true) (l2 : List Char) :
    (l1 ++ l2).dropWhile p = l2.dropWhile p := by
  induction l1 with
  | nil => rfl
  | cons x xs ih =>
    rw [List.cons_append, List.dropWhile_cons, h x (by simp),
      ih (fun y hy => h y (List.mem_cons_of_mem _ hy))]
    simp

theorem takeWhile_append_of_all {p : Char → Bool} {l1 : List Char}
    (h : ∀ x ∈ l1, p x = true) (l2 : List Char) :
    (l1 ++ l2).takeWhile p = l1 ++ l2.takeWhile p := by
  induction l1 with
  | nil => rfl
  | cons x xs ih =>
    rw [List.cons_append, List.takeWhile_cons, h x (by simp),
      ih (fun y hy => h y (List.mem_cons_of_mem _ hy))]
    simp

/-- Parsing inverts rendering on well-formed values. -/
theorem parseContentDisposition_render (cd : ContentDisposition)
    (h : cd.wellFormed) :
    parseContentDisposition (renderContentDisposition cd) = some cd := by
  unfold ContentDisposition.wellFormed at h
  have hall : ∀ c ∈ cd.disposition_type.data,
      (fun c => decide (c ≠ ';')) c = true := by
    intro c hc
    simp only [ne_eq, decide_eq_true_eq]
    intro hceq
    exact h (hceq ▸ hc)
  match hcd : cd.filename with
  | none =>
    have hrender : renderContentDisposition cd = cd.disposition_type := by
      unfold renderContentDisposition
      rw [hcd]
    rw [hrender]
    unfold parseContentDisposition
    rw [List.dropWhile_eq_nil_iff.mpr (fun c hc => hall c hc)]
    rw [if_pos rfl, string_mk_data]
    rw [show (⟨cd.disposition_type, none⟩ : ContentDisposition) = cd by
      cases cd
      simp_all]
  | some f =>
    have hrender : renderContentDisposition cd
        = cd.disposition_type ++ "; filename=" ++ f := by
      unfold renderContentDisposition
      rw [hcd]
    have hdata : (cd.disposition_type ++ "; filename=" ++ f).data
        = cd.disposition_type.data
          ++ (';' :: ((" filename=").data ++ f.data)) := by
      rw [String.data_append, String.data_append, List.append_assoc]
      rfl
    have hdrop : (renderContentDisposition cd).data.dropWhile
        (fun c => c ≠ ';') = ';' :: ((" filename=").data ++ f.data) := by
      rw [hrender, hdata, dropWhile_append_of_all hall, List.dropWhile_cons]
      simp
    have htake : (renderContentDisposition cd).data.takeWhile
        (fun c => c ≠ ';') = cd.disposition_type.data := by
      rw [hrender, hdata, takeWhile_append_of_all hall, List.takeWhile_cons]
      simp
    unfold parseContentDisposition
    rw [hdrop, htake]
    rw [if_neg (by simp)]
    rw [if_pos]
    · rw [show (';' :: ((" filename=").data ++ f.data)).tail
        = (" filename=").data ++ f.data from rfl]
      rw [show (10 : Nat) = (" filename=").data.length from rfl,
        List.drop_left, string_mk_data, string_mk_data]
      rw [show (⟨cd.disposition_type, some f⟩ : ContentDisposition) = cd by
        cases cd
        simp_all]
    · rw [show (';' :: ((" filename=").data ++ f.data)).tail
        = (" filename=").data ++ f.data from rfl]
      rw [ List.isPrefixOf_iff_prefix]
      exact List.prefix_append _ _

/-- C1: version resolution over this endpoint's metadata follows the spec
policy: among stable-tagged templates whose version is at most the
negotiated version the greatest is picked, so any negotiated stable
version at least `1.11` yields the `/_matrix/client/v1/...` template; if
no stable template qualifies, the unstable `org.matrix.msc3916` template
is the fallback; with neither a qualifying stable nor an unstable entry,
resolution fails with `UnsupportedVersion`. -/
theorem C1_version_resolution :
    (∀ v : Nat × Nat, verLe (1, 11) v = true →
      resolveVersion METADATA.history v = .ok v1Template)
    ∧ (∀ v : Nat × Nat, verLe (1, 11) v = false →
      resolveVersion METADATA.history v = .ok unstableTemplate)
    ∧ (∀ (h : List (VersionTag × List Seg)) (v : Nat × Nat),
      (∀ e ∈ h, ∃ sv, e.1 = VersionTag.stable sv ∧ verLe sv v = false) →
      resolveVersion h v = .error .unsupportedVersion) := by
  refine ⟨?_, ?_, ?_⟩
  · intro v h
    simp [resolveVersion, bestStable, METADATA, List.foldl, h]
  · intro v h
    simp [resolveVersion, bestStable, METADATA, List.foldl, h,
      List.find?, isUnstableTag]
  · intro hist v hyp
    unfold resolveVersion
    rw [bestStable_none_of_no_qualifying hyp]
    rw [find_unstable_none_of_all_stable
      (fun e he => (hyp e he).imp (fun sv hsv => hsv.1))]

/-- Closed instances of `C1_version_resolution` at versions `1.11`, `0.9`,
and a history with only a non-qualifying stable entry. -/
theorem C1_witness :
    resolveVersion METADATA.history (1, 11) = .ok v1Template
    ∧ resolveVersion METADATA.history (0, 9) = .ok unstableTemplate
    ∧ resolveVersion [(.stable (2, 0), v1Template)] (1, 0)
      = .error .unsupportedVersion := by
  refine ⟨C1_version_resolution.1 (1, 11) (by decide),
    C1_version_resolution.2.1 (0, 9) (by decide),
    C1_version_resolution.2.2 [(.stable (2, 0), v1Template)] (1, 0) ?_⟩
  intro e he
  rw [List.mem_singleton] at he
  subst he
  exact ⟨(2, 0), rfl, by decide⟩

/-- C2: for every request, encoding with `timeout_ms` equal to the declared
default of 20000 ms produces a wire request whose query carries no
`timeout_ms` parameter, and encoding with 5000 ms produces the query
parameter `timeout_ms=5000`. -/
theorem C2_omit_if_default (sn mid fn : String) :
    (∃ w, encodeRequest (1, 11) ⟨sn, mid, fn, 20000⟩ = .ok w
      ∧ w.query = [] ∧ assocLookup "timeout_ms" w.query = none)
    ∧ (∃ w, encodeRequest (1, 11) ⟨sn, mid, fn, 5000⟩ = .ok w
      ∧ w.query = [("timeout_ms", "5000")]) := by
  constructor
  · refine ⟨_, rfl, ?_, ?_⟩ <;>
      simp [queryOf, default_download_timeout, is_default_download_timeout,
        assocLookup, encodeRequest, resolveVersion, bestStable, METADATA,
        renderPath, renderSegs, fieldsOf]
  · refine ⟨_, rfl, ?_⟩
    simp [queryOf, default_download_timeout, is_default_download_timeout,
      encodeRequest, resolveVersion, bestStable, METADATA,
      renderPath, renderSegs, fieldsOf]
    decide

/-- C4: the request with server name `example.org`, media ID `abc123`,
filename `report.pdf` and the default timeout encodes to a `GET` wire
request whose path ends in `/media/download/example.org/abc123/report.pdf`,
with no timeout query parameter and an empty body. -/
theorem C4_end_to_end :
    ∃ w, encodeRequest (1, 11)
        { server_name := "example.org", media_id := "abc123",
          filename := "report.pdf",
          timeout_ms := default_download_timeout } = .ok w
      ∧ w.method = "GET"
      ∧ List.isSuffixOf
          (strBytes "/media/download/example.org/abc123/report.pdf")
          w.path = true
      ∧ assocLookup "timeout_ms" w.query = none
      ∧ w.body = [] := by
  refine ⟨_, rfl, by decide, by decide, by decide, by decide⟩

/-- C5 (counterexample): the media ID `%41/` contains `/`, yet because the
spec's no-double-encoding rule leaves `%` untouched, percent-decoding the
rendered segment yields `A/`, not the original string. -/
theorem C5_counterexample :
    '/' ∈ ("%41/").data
    ∧ pctDecodeBytes (pctEncodeBytes (strBytes "%41/")) ≠ strBytes "%41/" := by
  decide

/-- C5 (amended): for every media ID containing `/` and not containing
`%`, the rendered segment is nonempty, contains no `/` byte (so it
occupies exactly one path segment), and percent-decoding it yields the
original string's bytes. -/
theorem C5_one_segment_round_trip (s : String)
    (hslash : '/' ∈ s.data) (hpct : '%' ∉ s.data) :
    pctEncodeBytes (strBytes s) ≠ []
    ∧ 47 ∉ pctEncodeBytes (strBytes s)
    ∧ pctDecodeBytes (pctEncodeBytes (strBytes s)) = strBytes s := by
  have h47 : (47 : Nat) ∈ strBytes s := by
    have := (@ascii_mem_strBytes s '/' (by decide)).mpr hslash
    exact this
  have h37 : (37 : Nat) ∉ strBytes s := by
    intro hm
    exact hpct ((@ascii_mem_strBytes s '%' (by decide)).mp hm)
  refine ⟨?_, slash_not_mem_pctEncodeBytes _, ?_⟩
  · intro hnil
    have : strBytes s ≠ [] := List.ne_nil_of_mem h47
    match hb : strBytes s with
    | [] => exact this hb
    | b :: rest =>
      rw [hb, pctEncodeBytes_cons] at hnil
      rcases List.append_eq_nil.mp hnil with ⟨h1, _⟩
      unfold pctEncodeByte at h1
      split at h1 <;> simp at h1
  · exact pctDecode_pctEncode _ (fun b hb => mem_strBytes_lt hb) h37

/-- Closed instance of `C5_one_segment_round_trip` at the media ID
`a/b`. -/
theorem C5_witness :
    ('/' ∈ ("a/b").data ∧ '%' ∉ ("a/b").data)
    ∧ (pctEncodeBytes (strBytes "a/b") ≠ []
      ∧ 47 ∉ pctEncodeBytes (strBytes "a/b")
      ∧ pctDecodeBytes (pctEncodeBytes (strBytes "a/b")) = strBytes "a/b") :=
  ⟨⟨by decide, by decide⟩,
    C5_one_segment_round_trip "a/b" (by decide) (by decide)⟩

/-- C8: every placeholder of the two path templates of `METADATA`
corresponds to exactly one Path-location field of the request, and every
Path-location field has no default and is not optional. -/
theorem C8_metadata_invariant :
    ((METADATA.history.map (fun e => e.2)).all (fun tpl =>
      tpl.all (fun s =>
        match s with
        | .ph n => requestFieldMappings.countP
            (fun f => f.name == n && (f.location == Location.path)) == 1
        | .lit _ => true))) = true
    ∧ (requestFieldMappings.all (fun f =>
        !(f.location == Location.path)
          || (!f.hasDefault && !f.isOptional))) = true := by
  decide

/-- C9: encoding and decoding are deterministic pure functions of their
explicit inputs; equal inputs give equal outputs.  In this embedding both
operations are total functions and `METADATA` is an immutable constant, so
no call can mutate shared state observable by a later call. -/
theorem C9_pure_deterministic :
    (∀ (v : Nat × Nat) (r₁ r₂ : Request), r₁ = r₂ →
      encodeRequest v r₁ = encodeRequest v r₂)
    ∧ (∀ w₁ w₂ : WireResponse, w₁ = w₂ →
      decodeResponse w₁ = decodeResponse w₂) :=
  ⟨fun _ _ _ h => h ▸ rfl, fun _ _ h => h ▸ rfl⟩

/-- Closed instances of `C9_pure_deterministic` at a concrete request and
a concrete wire response. -/
theorem C9_witness :
    encodeRequest (1, 11) (Request.new "abc123" "example.org" "report.pdf")
      = encodeRequest (1, 11) (Request.new "abc123" "example.org" "report.pdf")
    ∧ decodeResponse ⟨200, [], []⟩ = decodeResponse ⟨200, [], []⟩ :=
  ⟨C9_pure_deterministic.1 (1, 11) _ _ rfl,
    C9_pure_deterministic.2 _ _ rfl⟩

/-- C6: a wire response without a `Content-Disposition` header decodes
successfully with the optional field in its absent state; and since
`cache_control` is declared as an optional raw string whose type requires
no structural validity, decoding never fails with a `HeaderParseError`
naming `cache-control` (the claim's conditional holds vacuously). -/
theorem C6_absent_optional_header :
    (∀ w : WireResponse,
      assocLookup "content-disposition" w.headers = none →
      ∃ r, decodeResponse w = .ok r ∧ r.content_disposition = none)
    ∧ (∀ (w : WireResponse) (v : String),
      decodeResponse w ≠ .error (.headerParse "cache-control" v)) := by
  constructor
  · intro w h
    refine ⟨{ file := w.body
              content_type := assocLookup "content-type" w.headers
              content_disposition := none
              cross_origin_resource_policy :=
                assocLookup "cross-origin-resource-policy" w.headers
              cache_control := assocLookup "cache-control" w.headers },
      ?_, rfl⟩
    simp only [decodeResponse, h]
  · intro w v h
    unfold decodeResponse at h
    split at h
    · exact Except.noConfusion h
    · split at h
      · injection h with h
        injection h with h
        simp at h
      · exact Except.noConfusion h

/-- Closed instances of `C6_absent_optional_header`: a response with only
a `Content-Type` header, and a response with an arbitrary
`Cache-Control` value. -/
theorem C6_witness :
    (∃ r, decodeResponse ⟨200, [("content-type", "application/pdf")], [7]⟩
        = .ok r ∧ r.content_disposition = none)
    ∧ decodeResponse ⟨200, [("cache-control", "###not==valid,,")], []⟩
      ≠ .error (.headerParse "cache-control" "###not==valid,,") :=
  ⟨C6_absent_optional_header.1 ⟨200, [("content-type", "application/pdf")], [7]⟩
      (by decide),
    C6_absent_optional_header.2 ⟨200, [("cache-control", "###not==valid,,")], []⟩
      "###not==valid,,"⟩

/-- C7: decoding is all-or-nothing: every wire response either fails as a
whole or decodes with every declared field resolved — the body verbatim
into `file`, each raw optional header to its lookup result (absence
included), and `content_disposition` to its absent state or its parsed
value.  No partially populated response is ever returned. -/
theorem C7_all_or_nothing (w : WireResponse) :
    (∃ e, decodeResponse w = .error e)
    ∨ ∃ r, decodeResponse w = .ok r
      ∧ r.file = w.body
      ∧ r.content_type = assocLookup "content-type" w.headers
      ∧ r.cross_origin_resource_policy
          = assocLookup "cross-origin-resource-policy" w.headers
      ∧ r.cache_control = assocLookup "cache-control" w.headers
      ∧ ((assocLookup "content-disposition" w.headers = none
          ∧ r.content_disposition = none)
        ∨ ∃ raw cd, assocLookup "content-disposition" w.headers = some raw
          ∧ parseContentDisposition raw = some cd
          ∧ r.content_disposition = some cd) := by
  cases hcd : assocLookup "content-disposition" w.headers with
  | none =>
    right
    refine ⟨{ file := w.body
              content_type := assocLookup "content-type" w.headers
              content_disposition := none
              cross_origin_resource_policy :=
                assocLookup "cross-origin-resource-policy" w.headers
              cache_control := assocLookup "cache-control" w.headers },
      ?_, rfl, rfl, rfl, rfl, Or.inl ⟨rfl, rfl⟩⟩
    simp only [decodeResponse, hcd]
  | some raw =>
    cases hp : parseContentDisposition raw with
    | none =>
      left
      refine ⟨.headerParse "content-disposition" raw, ?_⟩
      simp only [decodeResponse, hcd, hp]
    | some cd =>
      right
      refine ⟨{ file := w.body
                content_type := assocLookup "content-type" w.headers
                content_disposition := some cd
                cross_origin_resource_policy :=
                  assocLookup "cross-origin-resource-policy" w.headers
                cache_control := assocLookup "cache-control" w.headers },
        ?_, rfl, rfl, rfl, rfl, Or.inr ⟨raw, cd, rfl, hp, rfl⟩⟩
      simp only [decodeResponse, hcd, hp]

/-- C10: decoding can only fail on the structurally parsed
`content_disposition` field: every decode error is a `HeaderParseError`
naming `content-disposition` with an unparsable raw value, and in every
successful decode the three raw optional headers (`content_type`,
`cross_origin_resource_policy`, `cache_control`) are captured verbatim
from the wire. -/
theorem C10_only_structured_header_fails :
    (∀ (w : WireResponse) (e : ApiError), decodeResponse w = .error e →
      ∃ raw, e = .headerParse "content-disposition" raw
        ∧ assocLookup "content-disposition" w.headers = some raw
        ∧ parseContentDisposition raw = none)
    ∧ (∀ (w : WireResponse) (r : Response), decodeResponse w = .ok r →
      r.content_type = assocLookup "content-type" w.headers
      ∧ r.cross_origin_resource_policy
          = assocLookup "cross-origin-resource-policy" w.headers
      ∧ r.cache_control = assocLookup "cache-control" w.headers) := by
  constructor
  · intro w e h
    unfold decodeResponse at h
    split at h
    · exact Except.noConfusion h
    · rename_i raw hcd
      split at h
      · rename_i hp
        injection h with h
        exact ⟨raw, h.symm, hcd, hp⟩
      · exact Except.noConfusion h
  · intro w r h
    unfold decodeResponse at h
    split at h
    · injection h with h
      subst h
      exact ⟨rfl, rfl, rfl⟩
    · split at h
      · exact Except.noConfusion h
      · injection h with h
        subst h
        exact ⟨rfl, rfl, rfl⟩

/-- Closed instances of `C10_only_structured_header_fails`: a response
whose `Content-Disposition` is malformed, and a header-free response. -/
theorem C10_witness :
    (∃ raw, ApiError.headerParse "content-disposition" "bad;x"
        = .headerParse "content-disposition" raw
      ∧ assocLookup "content-disposition"
          [("content-disposition", "bad;x")] = some raw
      ∧ parseContentDisposition raw = none)
    ∧ ((Response.new [3]).content_type
        = assocLookup "content-type" []
      ∧ (Response.new [3]).cross_origin_resource_policy
        = assocLookup "cross-origin-resource-policy" []
      ∧ (Response.new [3]).cache_control
        = assocLookup "cache-control" []) :=
  ⟨C10_only_structured_header_fails.1
      ⟨200, [("content-disposition", "bad;x")], []⟩
      (.headerParse "content-disposition" "bad;x") (by rfl),
    C10_only_structured_header_fails.2
      ⟨200, [], [3]⟩ (Response.new [3]) (by rfl)⟩

theorem joinSegs_cons (s : List Nat) (rest : List (List Nat)) :
    joinSegs (s :: rest) = 47 :: (s ++ joinSegs rest) := by
  simp [joinSegs]

theorem decodeRequestPath_joinSegs (t : List Seg) {s : List Nat}
    {segs : List (List Nat)} (hs : 47 ∉ s)
    (hsegs : ∀ x ∈ segs, 47 ∉ x) :
    decodeRequestPath t (joinSegs (s :: segs)) = matchTemplate t (s :: segs) := by
  rw [joinSegs_cons]
  show matchTemplate t (splitOnByte 47 (s ++ joinSegs segs)) = _
  rw [splitOnByte_joinSegs hs hsegs]

theorem decodeQueryTimeout_queryOf (r : Request) :
    decodeQueryTimeout (queryOf r) = some r.timeout_ms := by
  unfold queryOf
  by_cases h : r.timeout_ms = default_download_timeout
  · simp [h, is_default_download_timeout, decodeQueryTimeout, assocLookup]
  · simp [h, is_default_download_timeout, decodeQueryTimeout, assocLookup,
      List.find?, parseNat_natToString]

theorem decode_encode_response (r : Response) (h : r.valid) :
    decodeResponse (encodeResponse r) = .ok r := by
  obtain ⟨file, ct, cdo, corp, cc⟩ := r
  cases cdo with
  | none =>
    cases ct <;> cases corp <;> cases cc <;>
      simp [encodeResponse, decodeResponse, optHeader, assocLookup,
        List.find?]
  | some cd =>
    have hp := parseContentDisposition_render cd (h cd rfl)
    cases ct <;> cases corp <;> cases cc <;>
      simp [encodeResponse, decodeResponse, optHeader, assocLookup,
        List.find?, hp]

theorem encode_decode_request (req : Request) (h : req.valid) :
    ∃ w, encodeRequest (1, 11) req = .ok w
      ∧ decodeRequestPath v1Template w.path
          = some [("server_name", strBytes req.server_name),
              ("media_id", strBytes req.media_id),
              ("filename", strBytes req.filename)]
      ∧ decodeQueryTimeout w.query = some req.timeout_ms := by
  obtain ⟨h1, h2, h3⟩ := h
  have henc : encodeRequest (1, 11) req
      = .ok { method := "GET"
              path := joinSegs [strBytes "_matrix", strBytes "client",
                strBytes "v1", strBytes "media", strBytes "download",
                pctEncodeBytes (strBytes req.server_name),
                pctEncodeBytes (strBytes req.media_id),
                pctEncodeBytes (strBytes req.filename)]
              query := queryOf req
              headers := []
              body := [] } := by
    rfl
  have hdec1 : pctDecodeBytes (pctEncodeBytes (strBytes req.server_name))
      = strBytes req.server_name :=
    pctDecode_pctEncode _ (fun b hb => mem_strBytes_lt hb)
      (fun hm => h1 ((ascii_mem_strBytes (by decide)).mp hm))
  have hdec2 : pctDecodeBytes (pctEncodeBytes (strBytes req.media_id))
      = strBytes req.media_id :=
    pctDecode_pctEncode _ (fun b hb => mem_strBytes_lt hb)
      (fun hm => h2 ((ascii_mem_strBytes (by decide)).mp hm))
  have hdec3 : pctDecodeBytes (pctEncodeBytes (strBytes req.filename))
      = strBytes req.filename :=
    pctDecode_pctEncode _ (fun b hb => mem_strBytes_lt hb)
      (fun hm => h3 ((ascii_mem_strBytes (by decide)).mp hm))
  refine ⟨_, henc, ?_, decodeQueryTimeout_queryOf req⟩
  rw [decodeRequestPath_joinSegs v1Template (by decide) ?hsegs]
  case hsegs =>
    intro x hx
    fin_cases hx <;>
      first
        | decide
        | exact slash_not_mem_pctEncodeBytes _
  simp [matchTemplate, v1Template, hdec1, hdec2, hdec3]

/-- C3: decoding the result of encoding reconstructs an equal value at the
field level wherever both directions are defined: a valid response
round-trips through `encodeResponse`/`decodeResponse` preserving the raw
body bytes and all four header fields, and a valid request's rendered
path and query decode back to its path-field byte values and its
timeout. -/
theorem C3_round_trip :
    (∀ resp : Response, resp.valid →
      decodeResponse (encodeResponse resp) = .ok resp)
    ∧ (∀ req : Request, req.valid →
      ∃ w, encodeRequest (1, 11) req = .ok w
        ∧ decodeRequestPath v1Template w.path
            = some [("server_name", strBytes req.server_name),
                ("media_id", strBytes req.media_id),
                ("filename", strBytes req.filename)]
        ∧ decodeQueryTimeout w.query = some req.timeout_ms) :=
  ⟨decode_encode_response, encode_decode_request⟩

/-- Closed instances of `C3_round_trip` at a fully populated response and
a concrete request with a non-default timeout. -/
theorem C3_witness :
    decodeResponse (encodeResponse
        ⟨[1, 2, 3], some "application/pdf",
          some ⟨"attachment", some "file.pdf"⟩,
          some "cross-origin", some "no-cache"⟩)
      = .ok ⟨[1, 2, 3], some "application/pdf",
          some ⟨"attachment", some "file.pdf"⟩,
          some "cross-origin", some "no-cache"⟩
    ∧ ∃ w, encodeRequest (1, 11)
          ⟨"example.org", "abc123", "report.pdf", 5000⟩ = .ok w
        ∧ decodeRequestPath v1Template w.path
            = some [("server_name", strBytes "example.org"),
                ("media_id", strBytes "abc123"),
                ("filename", strBytes "report.pdf")]
        ∧ decodeQueryTimeout w.query = some 5000 :=
  ⟨C3_round_trip.1 _ (by intro cd h; injection h with h; subst h; decide),
    C3_round_trip.2 _ (by decide)⟩

/-- Closed instance of `C2_omit_if_default` at concrete field values. -/
theorem C2_witness :
    (∃ w, encodeRequest (1, 11) ⟨"example.org", "abc123", "report.pdf", 20000⟩
        = .ok w ∧ w.query = [] ∧ assocLookup "timeout_ms" w.query = none)
    ∧ (∃ w, encodeRequest (1, 11) ⟨"example.org", "abc123", "report.pdf", 5000⟩
        = .ok w ∧ w.query = [("timeout_ms", "5000")]) :=
  C2_omit_if_default "example.org" "abc123" "report.pdf"

/-- Closed instance of `C7_all_or_nothing` at a concrete wire response. -/
theorem C7_witness :
    (∃ e, decodeResponse ⟨200, [], [1]⟩ = .error e)
    ∨ ∃ r, decodeResponse ⟨200, [], [1]⟩ = .ok r
      ∧ r.file = [1]
      ∧ r.content_type = assocLookup "content-type" []
      ∧ r.cross_origin_resource_policy
          = assocLookup "cross-origin-resource-policy" []
      ∧ r.cache_control = assocLookup "cache-control" []
      ∧ ((assocLookup "content-disposition" [] = none
          ∧ r.content_disposition = none)
        ∨ ∃ raw cd, assocLookup "content-disposition" [] = some raw
          ∧ parseContentDisposition raw = some cd
          ∧ r.content_disposition = some cd) :=
  C7_all_or_nothing ⟨200, [], [1]⟩

end Ruma
